import Mathlib

/-!
Verification of the host-telemetry metrics agent (`agent.py`).

The Python source is shallowly embedded: Python floats are modelled as
exact rationals (`ℚ`), the `time.monotonic()` reading is passed
explicitly to the functions that call it, the per-tracker mutable dict
guarded by a lock is modelled as a function-valued state threaded
through each call, and code that can raise is modelled with
`Except Unit` (`.error ()` standing for a raised exception that the
enclosing `try/except` catches).
-/

namespace MetricsAgent

/-- Python `round(q, n)` on an exact rational: round half to even at `n`
decimal digits.  (CPython's `round` on floats rounds the exact binary
value half-to-even; on the exact-rational model this is the stated
function.) -/
def pyRoundTiesEven (q : ℚ) : ℤ :=
  if q - ⌊q⌋ = (1 : ℚ) / 2 then (if 2 ∣ ⌊q⌋ then ⌊q⌋ else ⌊q⌋ + 1) else round q

/-- `round(q, n)` with `n` decimal digits, as a rational. -/
def pyRound (q : ℚ) (n : ℕ) : ℚ :=
  (pyRoundTiesEven (q * (10 : ℚ) ^ n) : ℚ) / (10 : ℚ) ^ n

/-- State of `DeltaTracker` (`agent.py` lines 22–41): the `_data` dict
mapping a key to its `(last_value, last_time)` pair.  The lock only
serialises calls, so a single call is modelled as a pure state
transition. -/
structure DeltaTracker where
  data : String → Option (ℚ × ℚ)

/-- The empty tracker (`__init__`). -/
def DeltaTracker.init : DeltaTracker := ⟨fun _ => none⟩

/-- `DeltaTracker.update(key, value)` at monotonic time `now`
(`agent.py` lines 29–41).  In the source the pair is stored
unconditionally (the `if key in self._data` branch stores it and the
fall-through line stores it again, with the same value), and the rate
`val_delta / time_delta` is returned only when `time_delta > 0`;
otherwise `0.0` is returned. -/
def DeltaTracker.update (t : DeltaTracker) (key : String) (value now : ℚ) :
    ℚ × DeltaTracker :=
  let stored : DeltaTracker := ⟨fun k => if k = key then some (value, now) else t.data k⟩
  match t.data key with
  | some (oldVal, oldTime) =>
      let timeDelta := now - oldTime
      let valDelta := value - oldVal
      if timeDelta > 0 then (valDelta / timeDelta, stored) else ((0 : ℚ), stored)
  | none => ((0 : ℚ), stored)

/-- State of `CoreTracker` (`agent.py` lines 46–64): the `_cores` dict
mapping a core id to its `(idle, total)` tick pair. -/
structure CoreTracker where
  cores : ℤ → Option (ℚ × ℚ)

/-- The empty core tracker. -/
def CoreTracker.init : CoreTracker := ⟨fun _ => none⟩

/-- `CoreTracker.update(core_id, idle, total)` (`agent.py` lines
53–64): on a repeat observation with `total_delta > 0` it returns
`round((1.0 - idle_delta / total_delta) * 100, 1)`, else `0.0`; the
`(idle, total)` pair is always stored. -/
def CoreTracker.update (t : CoreTracker) (coreId : ℤ) (idle total : ℚ) :
    ℚ × CoreTracker :=
  let stored : CoreTracker := ⟨fun k => if k = coreId then some (idle, total) else t.cores k⟩
  match t.cores coreId with
  | some (oldIdle, oldTotal) =>
      let idleDelta := idle - oldIdle
      let totalDelta := total - oldTotal
      if totalDelta > 0 then (pyRound ((1 - idleDelta / totalDelta) * 100) 1, stored)
      else ((0 : ℚ), stored)
  | none => ((0 : ℚ), stored)

/-- Concrete tracker state used by the witnesses: key `"k"` stored with
value `5` at time `1`. -/
def dtW : DeltaTracker := ⟨fun k => if k = "k" then some (5, 1) else none⟩

/-- Concrete core-tracker state used by the C5 witness: core `0` stored
with `(idle, total) = (100, 200)`. -/
def ctW : CoreTracker := ⟨fun k => if k = 0 then some (100, 200) else none⟩

/-! ## Docker socket client: the bounded read loop (`agent.py` lines 571–586)

Response bytes are modelled as `List Char`; one `sock.recv(1024)` call
is modelled by a `ReadEvent` supplied by the environment. -/

/-- Outcome of one `sock.recv(1024)` call: a timeout (caught by the
loop, which breaks), some other socket error (which propagates to the
outer handler), or received bytes (`[]` meaning the peer closed the
connection, so `if not chunk: break` fires).  The peer cannot make a
single `recv(1024)` return more than 1024 bytes. -/
inductive ReadEvent where
  | timeout
  | oserr
  | data (bs : List Char)
deriving DecidableEq

/-- Number of bytes an event delivers. -/
def chunkLen : ReadEvent → ℕ
  | .data bs => bs.length
  | _ => 0

/-- Python's substring test `pat in l`. -/
def containsSeq (pat : List Char) : List Char → Bool
  | [] => pat.isEmpty
  | c :: rest => pat.isPrefixOf (c :: rest) || containsSeq pat rest

/-- The terminating chunk marker `b"\r\n0\r\n\r\n"`. -/
def dockerMarker : List Char := ['\r', '\n', '0', '\r', '\n', '\r', '\n']

/-- The `for _ in range(100)` read loop of `get_containers`: append
each received chunk, break when the terminating chunk marker is in the
accumulated buffer or more than 50 000 bytes have accumulated, break on
timeout or empty read, propagate other socket errors. -/
def readLoop : ℕ → List ReadEvent → List Char → Except Unit (List Char)
  | 0, _, acc => .ok acc
  | _ + 1, [], acc => .ok acc
  | _ + 1, .timeout :: _, acc => .ok acc
  | _ + 1, .oserr :: _, _ => .error ()
  | _ + 1, .data [] :: _, acc => .ok acc
  | fuel + 1, .data (c :: cs) :: rest, acc =>
      let acc2 := acc ++ (c :: cs)
      if containsSeq dockerMarker acc2 || decide (acc2.length > 50000) then .ok acc2
      else readLoop fuel rest acc2

/-- Bytes held by the loop result (`0` for a propagated error). -/
def loopBytes : Except Unit (List Char) → ℕ
  | .error _ => 0
  | .ok l => l.length

/-! ## Docker socket client: parsing and container mapping
(`agent.py` lines 558–639)

Python objects produced by `json.loads` are modelled by `Json`.  A
number carries both its rational value (used for truthiness) and its
rendered text (used by the serializer).  `json.loads` itself is the
Python standard library, not repository code, so it enters the
embedding as an abstract function `loads : List Char → Option Json`
(`none` = the parser raised). -/

/-- A Python value deserialized from JSON. -/
inductive Json where
  | null
  | bool (b : Bool)
  | num (v : ℚ) (rendered : List Char)
  | str (s : List Char)
  | arr (elems : List Json)
  | obj (fields : List (List Char × Json))

/-- Python truthiness (`if not names: continue`). -/
def Json.truthy : Json → Bool
  | .null => false
  | .bool b => b
  | .num v _ => decide (v ≠ 0)
  | .str s => !s.isEmpty
  | .arr xs => !xs.isEmpty
  | .obj kvs => !kvs.isEmpty

/-- Python `dict.get(key, dflt)` on a deserialized JSON object. -/
def jsonGet (kvs : List (List Char × Json)) (key : List Char) (dflt : Json) : Json :=
  match kvs.find? (fun kv => decide (kv.1 = key)) with
  | some kv => kv.2
  | none => dflt

/-- One container summary (`{'name': …, 'status': …, 'image': …}`).
`status` and `image` are taken from the JSON element and may be any
deserialized value (the source stores them verbatim). -/
structure ContainerSummary where
  name : List Char
  status : Json
  image : Json

/-- Python `names[0]`: first element of a list, first character of a
string; any other receiver raises (TypeError / IndexError / KeyError,
since a JSON object has no key `0`). -/
def getItem0 : Json → Except Unit Json
  | .arr (h :: _) => .ok h
  | .str (c :: _) => .ok (.str [c])
  | _ => .error ()

/-- Python `x.lstrip('/')`: defined on strings only, any other
receiver raises AttributeError. -/
def pyLstripSlash : Json → Except Unit (List Char)
  | .str s => .ok (s.dropWhile (fun c => c = '/'))
  | _ => .error ()

/-- Is this value the Python string `"/"`?  (`'/' in list` and
`'/' in dict` compare against elements / keys with `==`.) -/
def isSlashStr : Json → Bool
  | .str s => decide (s = ['/'])
  | _ => false

/-- `image = container.get('Image', ''); if '/' in image: image =
image.split('/')[-1]`.  On a string this keeps the segment after the
last `/`; `in` on a list or dict is membership (and a hit then raises
AttributeError at `.split`); `in` on a number, boolean or `None` raises
TypeError. -/
def imageShorten : Json → Except Unit Json
  | .str s =>
      if '/' ∈ s then .ok (.str ((s.splitOn '/').getLastD [])) else .ok (.str s)
  | .arr xs => if xs.any isSlashStr then .error () else .ok (.arr xs)
  | .obj kvs => if kvs.any (fun kv => decide (kv.1 = ['/'])) then .error ()
      else .ok (.obj kvs)
  | _ => .error ()

/-- The body of `for container in data:` for one element: `.ok none`
models `continue` (no names), `.error ()` models a raised exception
(non-dict element, non-string name, non-sliceable image, …), and
`.ok (some c)` models a successful `containers.append`. -/
def mapElem : Json → Except Unit (Option ContainerSummary)
  | .obj kvs =>
      let names := jsonGet kvs "Names".toList (.arr [])
      if names.truthy then do
        let n0 ← getItem0 names
        let name ← pyLstripSlash n0
        let image ← imageShorten (jsonGet kvs "Image".toList (.str []))
        let state := jsonGet kvs "State".toList (.str "unknown".toList)
        .ok (some ⟨name, state, image⟩)
      else .ok none
  | _ => .error ()

/-- The `for container in data` loop with Python exception semantics:
an exception in the body is caught by the enclosing handler, so the
`containers` accumulated so far are returned as they stand. -/
def containersLoop : List Json → List ContainerSummary → List ContainerSummary
  | [], acc => acc
  | j :: rest, acc =>
      match mapElem j with
      | .error _ => acc
      | .ok none => containersLoop rest acc
      | .ok (some c) => containersLoop rest (acc ++ [c])

/-- Iterating the value returned by `json.loads`: an array iterates its
elements; a string iterates its characters (each a 1-character string)
and a dict its keys — in both cases the first `.get` raises, so the
loop contributes nothing; anything else raises TypeError at `for`. -/
def processParsed : Json → List ContainerSummary
  | .arr xs => containersLoop xs []
  | .str s => containersLoop (s.map (fun c => .str [c])) []
  | .obj kvs => containersLoop (kvs.map (fun kv => .str kv.1)) []
  | _ => []

/-- The header/body separator `b"\r\n\r\n"`. -/
def headerSep : List Char := ['\r', '\n', '\r', '\n']

/-- `response.split(pat, 1)` guarded by `if pat in response`:
`some (before, after)` at the first occurrence of `pat`, `none` when
`pat` does not occur. -/
def splitFirst (pat : List Char) : List Char → Option (List Char × List Char)
  | [] => if pat.isEmpty then some ([], []) else none
  | c :: rest =>
      if pat.isPrefixOf (c :: rest) then some ([], (c :: rest).drop pat.length)
      else match splitFirst pat rest with
        | some (pre, post) => some (c :: pre, post)
        | none => none

/-- The bracket-depth scan of `get_containers`: over at most `budget`
characters, track `[` / `]` depth and return the number of characters
up to and including the bracket that returns the depth to zero
(`none` when the scan budget or the input is exhausted first). -/
def bracketScan : List Char → ℕ → ℤ → ℕ → Option ℕ
  | _, 0, _, _ => none
  | [], _ + 1, _, _ => none
  | c :: rest, budget + 1, depth, k =>
      if c = '[' then bracketScan rest budget (depth + 1) (k + 1)
      else if c = ']' then
        (if depth - 1 = 0 then some (k + 1) else bracketScan rest budget (depth - 1) (k + 1))
      else bracketScan rest budget depth (k + 1)

/-- Locate the first `[` of the body and slice out the bracket-balanced
substring found by the depth scan (`agent.py` lines 596–611); when the
scan finds no closing bracket, `json_end` stays at `json_start` and the
slice is empty — `some []` here. `none` means no `[` at all, in which
case the source skips parsing entirely. -/
def extractArray (body : List Char) : Option (List Char) :=
  match body.findIdx? (fun c => c = '[') with
  | none => none
  | some idx =>
      let tail := body.drop idx
      some (match bracketScan tail (min tail.length 50000) 0 0 with
            | some k => tail.take k
            | none => [])

/-- Environment of one `get_containers` call: whether `connect` and
`sendall` succeed, and the stream of `recv` outcomes. -/
structure SocketWorld where
  connectOk : Bool
  sendOk : Bool
  events : List ReadEvent

/-- `get_containers()` (`agent.py` lines 558–639), parameterized by the
abstract `json.loads`.  Every failure before the mapping loop lands in
the single outer `except Exception`, at which point `containers` is
still `[]`; a failure inside the mapping loop lands in the same handler
with the summaries accumulated so far. -/
def get_containers (loads : List Char → Option Json) (w : SocketWorld) :
    List ContainerSummary :=
  if w.connectOk = false then [] else
  if w.sendOk = false then [] else
  match readLoop 100 w.events [] with
  | .error _ => []
  | .ok response =>
      match splitFirst headerSep response with
      | none => []
      | some (_, body) =>
          match extractArray body with
          | none => []
          | some jsonStr =>
              match loads jsonStr with
              | none => []
              | some data => processParsed data

/-- The summaries produced by the elements that map successfully. -/
def okMapped (xs : List Json) : List ContainerSummary :=
  xs.filterMap (fun x => match mapElem x with | .ok r => r | .error _ => none)

/-- The well-formed first element of the counterexample array: a
running container named `/web` with image `img`. -/
def cexElemGood : Json :=
  .obj [("Names".toList, .arr [.str "/web".toList]),
        ("Image".toList, .str "img".toList),
        ("State".toList, .str "running".toList)]

/-- The counterexample payload: a well-formed element followed by the
JSON number `7`, whose `.get` call raises AttributeError. -/
def cexData : Json := .arr [cexElemGood, .num 7 ['7']]

/-- A parser behaviour agreeing with `json.loads` on the single input
the counterexample exercises. -/
def cexLoads : List Char → Option Json :=
  fun s => if s = "[A]".toList then some cexData else none

/-- Counterexample environment: connect and send succeed and one chunk
delivers a response whose body extracts to `"[A]"`. -/
def cexWorld : SocketWorld :=
  ⟨true, true, [.data ("H\r\n\r\n[A]".toList)]⟩

/-! ## Collectors and the snapshot orchestrator (`agent.py` lines 110–814)

The raw kernel readers are the spec's external collaborators: each
collector's `try:` body — the part that performs file reads and parsing
— is modelled by its outcome (`Except Unit` of the success payload, or
plain data where the body cannot raise), and the collector definition
translates the boundary around it: the `except` arm returning the
documented default.  `get_top_processes`, `get_tcp_connections` and
`get_containers` are modelled in full. -/

/-- Result of `get_uptime_boot` (lines 110–118). -/
structure UptimeBoot where
  uptime_seconds : ℚ
  boot_time : ℤ

/-- `get_uptime_boot`: failure → `{'uptime_seconds': 0, 'boot_time': 0}`. -/
def get_uptime_boot (core : Except Unit UptimeBoot) : UptimeBoot :=
  match core with
  | .ok r => r
  | .error _ => ⟨0, 0⟩

/-- One entry of the per-core list built by `get_cpu`. -/
structure CoreEntry where
  id : ℤ
  percent : ℚ

/-- Result of `get_cpu` (lines 120–174).  The failure default dict has
no `procs_running`/`procs_blocked` keys, hence the `Option` fields. -/
structure CpuResult where
  percent : ℚ
  cores : List CoreEntry
  context_switches_sec : ℚ
  procs_running : Option ℤ
  procs_blocked : Option ℤ

/-- The default `{'percent': 0, 'cores': [], 'context_switches_sec': 0}`. -/
def cpuDefault : CpuResult := ⟨0, [], 0, none, none⟩

/-- `get_cpu`: failure anywhere in the body → `cpuDefault`. -/
def get_cpu (core : Except Unit CpuResult) : CpuResult :=
  match core with
  | .ok r => r
  | .error _ => cpuDefault

/-- The `cpu_freq` dict (lines 189–194). -/
structure CpuFreq where
  current_mhz : ℚ
  min_mhz : ℚ
  max_mhz : ℚ

/-- `get_cpu_freq` (lines 176–197): the core yields the list of MHz
readings collected from sysfs (per-cpu failures are skipped by the
inner `try`); an empty list or a failed scan yields `None`. -/
def get_cpu_freq (core : Except Unit (List ℚ)) : Option CpuFreq :=
  match core with
  | .error _ => none
  | .ok [] => none
  | .ok (f :: fs) =>
      some ⟨pyRound ((f :: fs).sum / ((f :: fs).length : ℚ)) 0,
            pyRound (fs.foldl min f) 0,
            pyRound (fs.foldl max f) 0⟩

/-- One temperature reading (`{'name': …, 'celsius': …}`). -/
structure TempEntry where
  name : List Char
  celsius : ℚ

/-- `get_temperatures` (lines 199–246): thermal-zone entries followed
by hwmon entries (per-entry failures already skipped by the inner
`try` blocks); `temps if temps else None`. -/
def get_temperatures (thermal hwmon : List TempEntry) : Option (List TempEntry) :=
  let temps := thermal ++ hwmon
  if temps.isEmpty then none else some temps

/-- One of the two blocks built by `get_memory`; the failure default
carries only `total`, `used` and `percent`, hence the `Option`s. -/
structure MemBlock where
  total : ℤ
  used : ℤ
  available : Option ℤ
  buffers : Option ℤ
  cached : Option ℤ
  slab : Option ℤ
  free : Option ℤ
  percent : ℚ

/-- Result of `get_memory` (lines 248–290). -/
structure MemResult where
  memory : MemBlock
  swap : MemBlock

/-- The failure default block `{'total': 0, 'used': 0, 'percent': 0}`. -/
def memBlockDefault : MemBlock := ⟨0, 0, none, none, none, none, none, 0⟩

/-- `get_memory`: failure → default memory and swap blocks. -/
def get_memory (core : Except Unit MemResult) : MemResult :=
  match core with
  | .ok r => r
  | .error _ => ⟨memBlockDefault, memBlockDefault⟩

/-- One filesystem entry (lines 325–333). -/
structure FsEntry where
  mount : List Char
  device : List Char
  fstype : List Char
  total : ℤ
  used : ℤ
  available : ℤ
  percent : ℚ

/-- `get_filesystems` (lines 292–339): per-mount `statvfs` failures are
skipped by the inner `try`; a failure of the outer body (reading
`/proc/mounts`) occurs before any append, so the empty list results. -/
def get_filesystems (core : Except Unit (List FsEntry)) : List FsEntry :=
  match core with
  | .ok l => l
  | .error _ => []

/-- One disk I/O entry (lines 369–376); produced by the line loop of
`get_disk_io`, which updates the shared rate tracker (carried as data
here — no claim concerns its internals). -/
structure DiskEntry where
  device : List Char
  read_bytes_sec : ℚ
  write_bytes_sec : ℚ
  io_percent : ℚ
  reads : ℤ
  writes : ℤ

/-- One network-interface entry (lines 414–424). -/
structure NetEntry where
  iface : List Char
  rx_bytes : ℤ
  tx_bytes : ℤ
  rx_bytes_sec : ℚ
  tx_bytes_sec : ℚ
  rx_packets : ℤ
  tx_packets : ℤ
  rx_errors : ℤ
  tx_errors : ℤ

/-- Python whitespace for `str.split()` / `str.strip()`. -/
def pySpace (c : Char) : Bool :=
  c == ' ' || c == '\t' || c == '\n' || c == '\r' || c == '\x0b' || c == '\x0c'

/-- Python `str.split()` with no argument: split on runs of whitespace,
discarding empty pieces. -/
def splitWs : List Char → List (List Char)
  | [] => []
  | c :: rest =>
      if pySpace c then splitWs rest
      else (c :: rest.takeWhile (fun d => !pySpace d))
        :: splitWs (rest.dropWhile (fun d => !pySpace d))
termination_by l => l.length
decreasing_by
  · simp
  · exact Nat.lt_succ_of_le (List.dropWhile_sublist _).length_le

/-- The TCP state counters of `get_tcp_connections` (lines 430–456). -/
structure TcpCounts where
  established : ℤ
  syn_sent : ℤ
  syn_recv : ℤ
  fin_wait1 : ℤ
  fin_wait2 : ℤ
  time_wait : ℤ
  close : ℤ
  close_wait : ℤ
  last_ack : ℤ
  listen : ℤ
  closing : ℤ
  total : ℤ

/-- All counters zero (the initial `counts` dict). -/
def tcpZero : TcpCounts := ⟨0, 0, 0, 0, 0, 0, 0, 0, 0, 0, 0, 0⟩

/-- Count one connection line: `total` is always incremented; the state
hex code selects a named counter, and an unknown code maps to
`'other'`, which is not a key of `counts` and is therefore dropped. -/
def tcpBump (c0 : TcpCounts) (st : List Char) : TcpCounts :=
  let c := { c0 with total := c0.total + 1 }
  if st = "01".toList then { c with established := c.established + 1 }
  else if st = "02".toList then { c with syn_sent := c.syn_sent + 1 }
  else if st = "03".toList then { c with syn_recv := c.syn_recv + 1 }
  else if st = "04".toList then { c with fin_wait1 := c.fin_wait1 + 1 }
  else if st = "05".toList then { c with fin_wait2 := c.fin_wait2 + 1 }
  else if st = "06".toList then { c with time_wait := c.time_wait + 1 }
  else if st = "07".toList then { c with close := c.close + 1 }
  else if st = "08".toList then { c with close_wait := c.close_wait + 1 }
  else if st = "09".toList then { c with last_ack := c.last_ack + 1 }
  else if st = "0A".toList then { c with listen := c.listen + 1 }
  else if st = "0B".toList then { c with closing := c.closing + 1 }
  else c

/-- Process the lines of one `/proc/net/tcp*` file, skipping the header
line (`[1:]`): lines with at least four whitespace-separated fields
count, with the state code uppercased. -/
def tcpFile (c : TcpCounts) (content : List Char) : TcpCounts :=
  ((content.splitOn '\n').drop 1).foldl
    (fun acc line =>
      let parts := splitWs line
      if parts.length ≥ 4 then tcpBump acc ((parts.getD 3 []).map Char.toUpper) else acc)
    c

/-- `get_tcp_connections`: both files processed in order; an unreadable
file has content `''` (from `read_proc_file`) and contributes nothing. -/
def get_tcp_connections (content1 content2 : List Char) : TcpCounts :=
  tcpFile (tcpFile tcpZero content1) content2

/-- Result of `get_load` (lines 458–472); the failure default carries
only the three load averages. -/
structure LoadResult where
  load1 : ℚ
  load5 : ℚ
  load15 : ℚ
  processes_running : Option ℤ
  processes_total : Option ℤ

/-- The default `{'load1': 0, 'load5': 0, 'load15': 0}`. -/
def loadDefault : LoadResult := ⟨0, 0, 0, none, none⟩

/-- `get_load`: failure → `loadDefault`. -/
def get_load (core : Except Unit LoadResult) : LoadResult :=
  match core with
  | .ok r => r
  | .error _ => loadDefault

/-- The `file_descriptors` dict (lines 481–485). -/
structure FdInfo where
  allocated : ℤ
  max : ℤ
  percent : ℚ

/-- `get_file_descriptors` (lines 474–487): the core yields the parsed
`(allocated, max)` pair of `/proc/sys/fs/file-nr`; failure → `None`. -/
def get_file_descriptors (core : Except Unit (ℤ × ℤ)) : Option FdInfo :=
  match core with
  | .error _ => none
  | .ok (a, m) => some ⟨a, m, if m > 0 then pyRound ((a : ℚ) / (m : ℚ) * 100) 2 else 0⟩

/-- `get_entropy` (lines 489–495): failure → `None`. -/
def get_entropy (core : Except Unit ℤ) : Option ℤ :=
  match core with
  | .error _ => none
  | .ok n => some n

/-- The parsed numeric fields of one `/proc/<pid>/stat` read
(lines 517–530): `comm` plus `fields[11] (utime)`, `fields[12]
(stime)`, `fields[19] (starttime)`, `fields[20] (vsize)` and
`fields[21] (rss pages)`. -/
structure StatFields where
  comm : List Char
  utime : ℤ
  stime : ℤ
  starttime : ℤ
  vsize : ℤ
  rssPages : ℤ

/-- One entry of the `proc_data` list (lines 540–546). -/
structure ProcEntry where
  pid : ℤ
  name : List Char
  cpu : ℚ
  mem_rss : ℤ
  mem_virt : ℤ

/-- The per-pid body of `get_top_processes`: a failed stat read/parse
is skipped (`except: continue`), as is a `ZeroDivisionError` from
`clock_ticks = 0`; otherwise the entry is built with
`cpu = round((total_time / clock_ticks / proc_uptime) * 100, 1)` when
`proc_uptime > 0`, else `0`. -/
def mapPid (clockTicks pageSize : ℤ) (uptime : ℚ) (p : ℤ × Except Unit StatFields) :
    Option ProcEntry :=
  match p.2 with
  | .error _ => none
  | .ok s =>
      if clockTicks = 0 then none
      else
        let totalTime : ℚ := (s.utime : ℚ) + (s.stime : ℚ)
        let procUptime : ℚ := uptime - (s.starttime : ℚ) / (clockTicks : ℚ)
        let cpu : ℚ :=
          if procUptime > 0 then totalTime / (clockTicks : ℚ) / procUptime * 100 else 0
        some ⟨p.1, s.comm.take 15, pyRound cpu 1, s.rssPages * pageSize, s.vsize⟩

/-- `get_top_processes(n)` (lines 497–556): an unreadable
`/proc/uptime` returns `[]`; a failed `/proc` listing leaves
`processes = []` (`proc_data[:n]` is assigned only after the loop);
otherwise the per-pid entries are sorted by `cpu` descending (Python's
stable sort with `reverse=True`) and the first `n` are returned. -/
def get_top_processes (clockTicks pageSize : ℤ) (uptime : Except Unit ℚ)
    (pids : Except Unit (List (ℤ × Except Unit StatFields))) (n : ℕ) : List ProcEntry :=
  match uptime with
  | .error _ => []
  | .ok up =>
      match pids with
      | .error _ => []
      | .ok ps =>
          let procData := ps.filterMap (mapPid clockTicks pageSize up)
          (procData.mergeSort (fun a b => decide (b.cpu ≤ a.cpu))).take n

/-- One log entry (lines 663–668 and friends). -/
structure LogEntry where
  time : List Char
  level : List Char
  source : List Char
  message : List Char

/-- `get_recent_logs` (lines 641–750): the four journal/docker sources
are external collaborators; given the accumulated `logs` list, the
function returns `logs[-max_entries:]`. -/
def get_recent_logs (logs : List LogEntry) (maxEntries : ℕ) : List LogEntry :=
  logs.drop (logs.length - maxEntries)

/-- The cached static host facts (`get_static_info`, lines 69–100). -/
structure StaticInfo where
  hostname : List Char
  os : List Char
  arch : List Char
  cpu_model : List Char
  cpu_count : ℤ

/-- The environment of one `collect_metrics()` pass: the outcome of
every collector core.  The thread pool joins all futures
unconditionally, so the pass is a pure function of these outcomes; the
rate-tracker interactions of the CPU/disk/network collectors are inside
their cores. -/
structure Sys where
  static : StaticInfo
  timestamp : List Char
  uptimeCore : Except Unit UptimeBoot
  cpuCore : Except Unit CpuResult
  cpuFreqCore : Except Unit (List ℚ)
  thermal : List TempEntry
  hwmon : List TempEntry
  memoryCore : Except Unit MemResult
  fsCore : Except Unit (List FsEntry)
  diskEntries : List DiskEntry
  netEntries : List NetEntry
  tcpContent1 : List Char
  tcpContent2 : List Char
  loadCore : Except Unit LoadResult
  fdCore : Except Unit (ℤ × ℤ)
  entropyCore : Except Unit ℤ
  procUptime : Except Unit ℚ
  procPids : Except Unit (List (ℤ × Except Unit StatFields))
  clockTicks : ℤ
  pageSize : ℤ
  loads : List Char → Option Json
  docker : SocketWorld
  logs : List LogEntry

/-- The assembled snapshot (lines 780–812).  The four trailing fields
are the optional ones: `none` models key absence, not a `null` value. -/
structure Metrics where
  agent_version : List Char
  timestamp : List Char
  hostname : List Char
  system_os : List Char
  system_arch : List Char
  system_cpu_model : List Char
  system_cpu_count : ℤ
  uptime : UptimeBoot
  cpu : CpuResult
  memory : MemBlock
  swap : MemBlock
  load : LoadResult
  filesystems : List FsEntry
  disk_entries : List DiskEntry
  network : List NetEntry
  tcp : TcpCounts
  processes : List ProcEntry
  containers : List ContainerSummary
  logs : List LogEntry
  cpu_freq : Option CpuFreq
  temperatures : Option (List TempEntry)
  file_descriptors : Option FdInfo
  entropy : Option ℤ

/-- `collect_metrics()` (lines 752–814): every collector is a total
function of its core outcome, all results are joined, and the optional
fields are added only when truthy (`cpu_freq`, `temps`, `fds` are
either `None` or a non-empty dict/list, so truthiness is modelled
field-by-field; `entropy` uses `is not None` and so is included even
when `0`). -/
def collect_metrics (sys : Sys) : Metrics :=
  let mem := get_memory sys.memoryCore
  { agent_version := "1.0.0".toList
    timestamp := sys.timestamp
    hostname := sys.static.hostname
    system_os := sys.static.os
    system_arch := sys.static.arch
    system_cpu_model := sys.static.cpu_model
    system_cpu_count := sys.static.cpu_count
    uptime := get_uptime_boot sys.uptimeCore
    cpu := get_cpu sys.cpuCore
    memory := mem.memory
    swap := mem.swap
    load := get_load sys.loadCore
    filesystems := get_filesystems sys.fsCore
    disk_entries := sys.diskEntries
    network := sys.netEntries
    tcp := get_tcp_connections sys.tcpContent1 sys.tcpContent2
    processes := get_top_processes sys.clockTicks sys.pageSize sys.procUptime sys.procPids 10
    containers := get_containers sys.loads sys.docker
    logs := get_recent_logs sys.logs 10
    cpu_freq := get_cpu_freq sys.cpuFreqCore
    temperatures :=
      match get_temperatures sys.thermal sys.hwmon with
      | some l => if l.isEmpty then none else some l
      | none => none
    file_descriptors := get_file_descriptors sys.fdCore
    entropy := get_entropy sys.entropyCore }

/-! ## JSON serialization and the HTTP handler (`agent.py` lines 816–847)

`json.dumps` with `separators=(',', ':')` (compact) and with `indent=2`
(default branch) are modelled over `Json`.  A number serializes as its
`rendered` text; `Json.wf` states the well-formedness that any Python
int/float repr satisfies (digits, sign, dot, exponent — in particular
no whitespace, quote or backslash). -/

/-- One hexadecimal digit (lowercase, as CPython emits). -/
def hexDigit (n : ℕ) : Char :=
  if n < 10 then Char.ofNat ('0'.toNat + n) else Char.ofNat ('a'.toNat + (n - 10))

/-- Four hex digits of `n % 0x10000`. -/
def hex4 (n : ℕ) : List Char :=
  [hexDigit (n / 4096 % 16), hexDigit (n / 256 % 16), hexDigit (n / 16 % 16), hexDigit (n % 16)]

/-- `json.dumps` escaping of one character (`ensure_ascii=True`):
two-character escapes for the common controls, quote and backslash;
`\uXXXX` (with a surrogate pair beyond the BMP) for other controls and
all non-ASCII; printable ASCII passes through. -/
def escChar (c : Char) : List Char :=
  if c = '"' then ['\\', '"']
  else if c = '\\' then ['\\', '\\']
  else if c = '\n' then ['\\', 'n']
  else if c = '\r' then ['\\', 'r']
  else if c = '\t' then ['\\', 't']
  else if c = '\x08' then ['\\', 'b']
  else if c = '\x0c' then ['\\', 'f']
  else if c.toNat < 32 || c.toNat > 126 then
    if c.toNat ≥ 65536 then
      '\\' :: 'u' :: hex4 (55296 + (c.toNat - 65536) / 1024)
        ++ '\\' :: 'u' :: hex4 (56320 + (c.toNat - 65536) % 1024)
    else '\\' :: 'u' :: hex4 c.toNat
  else [c]

/-- Escape a whole string body. -/
def escape (s : List Char) : List Char := (s.map escChar).flatten

mutual

/-- `json.dumps(x, separators=(',', ':'))`: no whitespace outside
string literals. -/
def dumpsCompact : Json → List Char
  | .null => "null".toList
  | .bool true => "true".toList
  | .bool false => "false".toList
  | .num _ r => r
  | .str s => '"' :: escape s ++ ['"']
  | .arr xs => '[' :: dumpsCompactList xs ++ [']']
  | .obj kvs => '\x7b' :: dumpsCompactObj kvs ++ ['\x7d']

/-- Comma-joined compact array elements. -/
def dumpsCompactList : List Json → List Char
  | [] => []
  | [x] => dumpsCompact x
  | x :: y :: rest => dumpsCompact x ++ ',' :: dumpsCompactList (y :: rest)

/-- Comma-joined compact `"key":value` pairs. -/
def dumpsCompactObj : List (List Char × Json) → List Char
  | [] => []
  | [(k, v)] => '"' :: escape k ++ '"' :: ':' :: dumpsCompact v
  | (k, v) :: kv :: rest =>
      '"' :: escape k ++ '"' :: ':' :: dumpsCompact v ++ ',' :: dumpsCompactObj (kv :: rest)

end

/-- The indentation prefix at nesting level `lvl` for `indent=2`. -/
def pad (lvl : ℕ) : List Char := List.replicate (2 * lvl) ' '

mutual

/-- `json.dumps(x, indent=2)` at nesting level `lvl`: item separator
`,\n` + indentation, key separator `: `, empty containers inline. -/
def dumpsInd : ℕ → Json → List Char
  | _, .null => "null".toList
  | _, .bool true => "true".toList
  | _, .bool false => "false".toList
  | _, .num _ r => r
  | _, .str s => '"' :: escape s ++ ['"']
  | _, .arr [] => "[]".toList
  | lvl, .arr (x :: xs) =>
      '[' :: '\n' :: pad (lvl + 1) ++ dumpsIndList (lvl + 1) (x :: xs)
        ++ '\n' :: pad lvl ++ [']']
  | _, .obj [] => ['\x7b', '\x7d']
  | lvl, .obj (kv :: kvs) =>
      '\x7b' :: '\n' :: pad (lvl + 1) ++ dumpsIndObj (lvl + 1) (kv :: kvs)
        ++ '\n' :: pad lvl ++ ['\x7d']

/-- Indented array elements, separated by `,\n` + indentation. -/
def dumpsIndList : ℕ → List Json → List Char
  | _, [] => []
  | lvl, [x] => dumpsInd lvl x
  | lvl, x :: y :: rest =>
      dumpsInd lvl x ++ ',' :: '\n' :: pad lvl ++ dumpsIndList lvl (y :: rest)

/-- Indented `"key": value` pairs, separated by `,\n` + indentation. -/
def dumpsIndObj : ℕ → List (List Char × Json) → List Char
  | _, [] => []
  | lvl, [(k, v)] => '"' :: escape k ++ '"' :: ':' :: ' ' :: dumpsInd lvl v
  | lvl, (k, v) :: kv :: rest =>
      '"' :: escape k ++ '"' :: ':' :: ' ' :: dumpsInd lvl v
        ++ ',' :: '\n' :: pad lvl ++ dumpsIndObj lvl (kv :: rest)

end

/-- Remove the whitespace that is insignificant to the JSON grammar —
spaces and newlines outside string literals — tracking whether the scan
is inside a string (`inStr`) and just after a backslash (`esc`), so
that string contents, including escaped quotes, pass through
untouched.  Two serializations of the same value that agree after this
erasure deserialize identically. -/
def stripWs : Bool → Bool → List Char → List Char
  | _, _, [] => []
  | true, true, c :: cs => c :: stripWs true false cs
  | true, false, c :: cs =>
      if c = '\\' then c :: stripWs true true cs
      else if c = '"' then c :: stripWs false false cs
      else c :: stripWs true false cs
  | false, _, c :: cs =>
      if c = ' ' || c = '\n' then stripWs false false cs
      else if c = '"' then c :: stripWs true false cs
      else c :: stripWs false false cs

/-- Characters a Python int/float repr can contain. -/
def numOkChar (c : Char) : Bool :=
  c.isDigit || c = '-' || c = '+' || c = '.' || c = 'e' || c = 'E'

mutual

/-- Well-formedness of a `Json` value as produced by the agent: every
number's rendered text is made of numeral characters (true of every
Python int/float repr). -/
def Json.wf : Json → Bool
  | .null => true
  | .bool _ => true
  | .num _ r => r.all numOkChar
  | .str _ => true
  | .arr xs => Json.wfList xs
  | .obj kvs => Json.wfObj kvs

/-- `Json.wf` over array elements. -/
def Json.wfList : List Json → Bool
  | [] => true
  | x :: xs => x.wf && Json.wfList xs

/-- `Json.wf` over object values. -/
def Json.wfObj : List (List Char × Json) → Bool
  | [] => true
  | (_, v) :: rest => v.wf && Json.wfObj rest

end

/-- A response from the handler: status code and body. -/
structure HttpResponse where
  status : ℕ
  body : List Char

/-- `MetricsHandler.do_GET` (lines 819–847), parameterized by the pure
marshalling `serialize` of the snapshot into its JSON document:
`path = self.path.split('?')[0]`, the query is the piece after the
first `?`, `compact` is a substring test, `/metrics` always answers
`200` with the compact or indented dump, `/health` answers `200 OK`,
anything else `404` (the `send_error` HTML body is not modelled). -/
def do_GET (serialize : Metrics → Json) (sys : Sys) (rawPath : List Char) : HttpResponse :=
  let path := (rawPath.splitOn '?').getD 0 []
  let query := if '?' ∈ rawPath then (rawPath.splitOn '?').getD 1 [] else []
  let compact := containsSeq "compact=1".toList query
    || containsSeq "compact=true".toList query
  if path = "/metrics".toList then
    if compact then ⟨200, dumpsCompact (serialize (collect_metrics sys))⟩
    else ⟨200, dumpsInd 0 (serialize (collect_metrics sys))⟩
  else if path = "/health".toList then ⟨200, "OK".toList⟩
  else ⟨404, []⟩

/-- A collection pass in which every abstract core fails and the
Docker environment is the C1 counterexample one (a per-element mapping
failure after one successful element). -/
def cexSys : Sys :=
  { static := ⟨[], [], [], [], 0⟩
    timestamp := []
    uptimeCore := .error ()
    cpuCore := .error ()
    cpuFreqCore := .error ()
    thermal := []
    hwmon := []
    memoryCore := .error ()
    fsCore := .error ()
    diskEntries := []
    netEntries := []
    tcpContent1 := []
    tcpContent2 := []
    loadCore := .error ()
    fdCore := .error ()
    entropyCore := .error ()
    procUptime := .error ()
    procPids := .error ()
    clockTicks := 100
    pageSize := 4096
    loads := cexLoads
    docker := cexWorld
    logs := [] }

/-- `cexSys` with one thermal-zone reading available. -/
def sysTemps : Sys := { cexSys with thermal := [⟨"zone0".toList, 30⟩] }

/-- A concrete marshalling used by the serialization witness: every
snapshot maps to the one-field document `{"a": null}`. -/
def serializeW : Metrics → Json := fun _ => Json.obj [("a".toList, Json.null)]

/-! ## Theorems -/

/-- C3: for a key stored with pair `(v1, t1)`, `update(key, v2)` at
monotonic time `t2 > t1` returns exactly `(v2 - v1) / (t2 - t1)`, and a
negative value delta is passed through unclamped as a negative rate. -/
theorem deltaTracker_rate_exact (t : DeltaTracker) (key : String) (v1 t1 v2 t2 : ℚ)
    (hstored : t.data key = some (v1, t1)) (ht : t2 > t1) :
    (t.update key v2 t2).1 = (v2 - v1) / (t2 - t1) ∧
      (v2 < v1 → (t.update key v2 t2).1 < 0) := by
  have hpos : t2 - t1 > 0 := sub_pos.mpr ht
  have hupd : (t.update key v2 t2).1 = (v2 - v1) / (t2 - t1) := by
    unfold DeltaTracker.update
    rw [hstored]
    simp [hpos]
  refine ⟨hupd, fun hneg => ?_⟩
  rw [hupd]
  exact div_neg_of_neg_of_pos (sub_neg.mpr hneg) hpos

/-- Witness for C3 at the stored pair `(5, 1)` updated with value `3`
at time `2`: the rate is `(3 - 5) / (2 - 1) = -2`. -/
theorem deltaTracker_rate_exact_witness :
    (dtW.data "k" = some (5, 1) ∧ (2 : ℚ) > 1) ∧
      ((dtW.update "k" 3 2).1 = (3 - 5) / (2 - 1) ∧
        ((3 : ℚ) < 5 → (dtW.update "k" 3 2).1 < 0)) :=
  ⟨⟨by simp [dtW], by norm_num⟩,
    deltaTracker_rate_exact dtW "k" 5 1 3 2 (by simp [dtW]) (by norm_num)⟩

/-- C4: for a key stored with pair `(v1, t1)`, `update(key, v2)` at a
monotonic time equal to the stored timestamp returns `0.0` and still
replaces the stored pair with `(v2, now)`. -/
theorem deltaTracker_zero_dt (t : DeltaTracker) (key : String) (v1 t1 v2 : ℚ)
    (hstored : t.data key = some (v1, t1)) :
    (t.update key v2 t1).1 = 0 ∧
      (t.update key v2 t1).2.data key = some (v2, t1) := by
  unfold DeltaTracker.update
  rw [hstored]
  simp

/-- Witness for C4: key `"k"` stored as `(5, 1)`, updated with value
`3` again at time `1`: rate `0`, stored pair `(3, 1)`. -/
theorem deltaTracker_zero_dt_witness :
    dtW.data "k" = some (5, 1) ∧
      ((dtW.update "k" 3 1).1 = 0 ∧
        (dtW.update "k" 3 1).2.data "k" = some (3, 1)) :=
  ⟨by simp [dtW], deltaTracker_zero_dt dtW "k" 5 1 3 (by simp [dtW])⟩

/-- C7: for a key never seen before, `update(key, v)` returns `0.0` and
afterwards the key is present in the map with stored pair `(v, now)`. -/
theorem deltaTracker_first_obs (t : DeltaTracker) (key : String) (v now : ℚ)
    (hfresh : t.data key = none) :
    (t.update key v now).1 = 0 ∧
      (t.update key v now).2.data key = some (v, now) := by
  unfold DeltaTracker.update
  rw [hfresh]
  simp

/-- Witness for C7: the fresh key `"new"` updated with value `7` at
time `4` on the witness tracker. -/
theorem deltaTracker_first_obs_witness :
    dtW.data "new" = none ∧
      ((dtW.update "new" 7 4).1 = 0 ∧
        (dtW.update "new" 7 4).2.data "new" = some (7, 4)) :=
  ⟨by simp [dtW], deltaTracker_first_obs dtW "new" 7 4 (by simp [dtW])⟩

/-- C5: for a core stored with pair `(idle1, total1)`,
`update(core_id, idle2, total2)` returns
`round((1 - (idle2-idle1)/(total2-total1)) * 100, 1)` when
`total2 - total1 > 0` and `0.0` otherwise. -/
theorem coreTracker_usage (t : CoreTracker) (coreId : ℤ) (idle1 total1 idle2 total2 : ℚ)
    (hstored : t.cores coreId = some (idle1, total1)) :
    (t.update coreId idle2 total2).1 =
      if total2 - total1 > 0 then
        pyRound ((1 - (idle2 - idle1) / (total2 - total1)) * 100) 1
      else 0 := by
  unfold CoreTracker.update
  rw [hstored]
  by_cases h : total2 - total1 > 0 <;> simp [h]

/-- Witness for C5: the sequence `(100, 200)` then `(150, 300)` yields
the claimed formula, which evaluates to `50.0`. -/
theorem coreTracker_usage_witness :
    ctW.cores 0 = some (100, 200) ∧
      ((ctW.update 0 150 300).1 =
          if (300 : ℚ) - 200 > 0 then
            pyRound ((1 - (150 - 100) / (300 - 200)) * 100) 1
          else 0) ∧
      (ctW.update 0 150 300).1 = 50 :=
  ⟨by simp [ctW], coreTracker_usage ctW 0 100 200 150 300 (by simp [ctW]),
    by norm_num [ctW, CoreTracker.update, pyRound, pyRoundTiesEven]⟩

/-- The loop at fuel `n` never looks beyond the first `n` events. -/
theorem readLoop_take (fuel : ℕ) (events : List ReadEvent) (acc : List Char) :
    readLoop fuel events acc = readLoop fuel (events.take fuel) acc := by
  induction fuel generalizing events acc with
  | zero => rfl
  | succ n ih =>
      match events with
      | [] => rfl
      | .timeout :: _ => rfl
      | .oserr :: _ => rfl
      | .data [] :: _ => rfl
      | .data (c :: cs) :: rest =>
          show readLoop (n + 1) _ _ = readLoop (n + 1) (.data (c :: cs) :: rest.take n) _
          unfold readLoop
          dsimp only
          split
          · rfl
          · exact ih rest _

/-- If every chunk is at most 1024 bytes and the accumulator is within
the 50 000-byte budget, the loop result holds at most `50000 + 1024`
bytes. -/
theorem readLoop_byteBound (fuel : ℕ) (events : List ReadEvent) (acc : List Char)
    (hacc : acc.length ≤ 50000) (hch : ∀ e ∈ events, chunkLen e ≤ 1024) :
    loopBytes (readLoop fuel events acc) ≤ 50000 + 1024 := by
  induction fuel generalizing events acc with
  | zero => simpa [readLoop, loopBytes] using le_trans hacc (by norm_num)
  | succ n ih =>
      match events with
      | [] => simpa [readLoop, loopBytes] using le_trans hacc (by norm_num)
      | .timeout :: _ => simpa [readLoop, loopBytes] using le_trans hacc (by norm_num)
      | .oserr :: _ => simp [readLoop, loopBytes]
      | .data [] :: _ => simpa [readLoop, loopBytes] using le_trans hacc (by norm_num)
      | .data (c :: cs) :: rest =>
          have hlen : (acc ++ (c :: cs)).length ≤ 50000 + 1024 := by
            have h1 : (c :: cs).length ≤ 1024 := by
              simpa [chunkLen] using hch _ (List.mem_cons_self _ _)
            simpa [List.length_append] using Nat.add_le_add hacc h1
          unfold readLoop
          dsimp only
          split
          · simpa [loopBytes] using hlen
          · rename_i hcond
            have hfalse : (containsSeq dockerMarker (acc ++ (c :: cs)) ||
                decide ((acc ++ (c :: cs)).length > 50000)) = false :=
              Bool.eq_false_iff.mpr hcond
            rcases Bool.or_eq_false_iff.mp hfalse with ⟨_, h2⟩
            have hle : (acc ++ (c :: cs)).length ≤ 50000 :=
              Nat.le_of_not_lt (of_decide_eq_false h2)
            exact ih rest _ hle fun e he => hch e (List.mem_cons_of_mem _ he)

/-- C6: the read loop (a) consumes at most 100 reads, (b) keeps the
accumulated buffer within `50000 + 1024` bytes when each `recv(1024)`
delivers at most 1024 bytes, and (c) stops immediately on a timeout, on
an empty read, and as soon as appending a chunk puts the terminating
marker in the buffer or pushes it past 50 000 bytes. -/
theorem readLoop_bounded (events : List ReadEvent) (acc : List Char)
    (hacc : acc.length ≤ 50000) (hch : ∀ e ∈ events, chunkLen e ≤ 1024) :
    readLoop 100 events acc = readLoop 100 (events.take 100) acc ∧
      loopBytes (readLoop 100 events acc) ≤ 50000 + 1024 ∧
      (∀ rest, readLoop 100 (ReadEvent.timeout :: rest) acc = .ok acc) ∧
      (∀ rest, readLoop 100 (ReadEvent.data [] :: rest) acc = .ok acc) ∧
      (∀ c cs rest,
        (containsSeq dockerMarker (acc ++ c :: cs) ||
            decide ((acc ++ c :: cs).length > 50000)) = true →
        readLoop 100 (ReadEvent.data (c :: cs) :: rest) acc = .ok (acc ++ c :: cs)) := by
  refine ⟨readLoop_take 100 events acc, readLoop_byteBound 100 events acc hacc hch,
    fun _ => rfl, fun _ => rfl, fun c cs rest hstop => ?_⟩
  unfold readLoop
  dsimp only
  split
  · rfl
  · rename_i hcond
    exact absurd hstop hcond

/-- Witness for C6 on a concrete event stream: one 1-byte chunk then a
timeout, starting from the empty buffer; plus the immediate-stop case
where the first chunk is exactly the terminating marker. -/
theorem readLoop_bounded_witness :
    (([] : List Char).length ≤ 50000 ∧
        ∀ e ∈ [ReadEvent.data ['a'], ReadEvent.timeout], chunkLen e ≤ 1024) ∧
      loopBytes (readLoop 100 [ReadEvent.data ['a'], ReadEvent.timeout] []) ≤ 50000 + 1024 ∧
      readLoop 100 [ReadEvent.data dockerMarker] [] = .ok dockerMarker := by
  have hch : ∀ e ∈ [ReadEvent.data ['a'], ReadEvent.timeout], chunkLen e ≤ 1024 := by
    intro e he
    fin_cases he <;> simp [chunkLen]
  have h := readLoop_bounded [ReadEvent.data ['a'], ReadEvent.timeout] []
    (by simp) hch
  refine ⟨⟨by simp, hch⟩, h.2.1, ?_⟩
  have h5 := (readLoop_bounded [] [] (by simp) (by simp)).2.2.2.2
    '\r' ['\n', '0', '\r', '\n', '\r', '\n'] [] (by decide)
  simpa [dockerMarker] using h5

/-- When every element of `xs` maps without raising and `j` raises, the
loop returns exactly the summaries of `xs` accumulated so far. -/
theorem containersLoop_prefix (xs : List Json)
    (hok : ∀ x ∈ xs, mapElem x ≠ .error ()) (j : Json)
    (hj : mapElem j = .error ()) (rest : List Json) (acc : List ContainerSummary) :
    containersLoop (xs ++ j :: rest) acc = acc ++ okMapped xs := by
  induction xs generalizing acc with
  | nil => simp [containersLoop, hj, okMapped]
  | cons x xs ih =>
      have hx := hok x (List.mem_cons_self _ _)
      have hxs : ∀ y ∈ xs, mapElem y ≠ .error () :=
        fun y hy => hok y (List.mem_cons_of_mem _ hy)
      match hmx : mapElem x with
      | .error e => exact absurd (by cases e; exact hmx) hx
      | .ok none => simp [containersLoop, hmx, okMapped, ih hxs]
      | .ok (some c) =>
          have h1 : containersLoop ((x :: xs) ++ j :: rest) acc
              = containersLoop (xs ++ j :: rest) (acc ++ [c]) := by
            simp [containersLoop, hmx]
          rw [h1, ih hxs (acc ++ [c])]
          simp [okMapped, List.filterMap_cons, hmx, List.append_assoc]

/-- C1 (amended): any failure before the per-element mapping loop —
connect, send, a propagating read error, a missing header/body
separator, a body with no `[`, or a JSON parse failure — yields the
empty list, and the client never raises (the embedding is a total
function); but a failure while mapping an element returns exactly the
summaries of the elements successfully mapped before it — a partial
list, not the empty list. -/
theorem get_containers_error_handling (loads : List Char → Option Json) (w : SocketWorld) :
    (w.connectOk = false → get_containers loads w = []) ∧
    (w.sendOk = false → get_containers loads w = []) ∧
    (readLoop 100 w.events [] = .error () → get_containers loads w = []) ∧
    (∀ response, readLoop 100 w.events [] = .ok response →
      splitFirst headerSep response = none → get_containers loads w = []) ∧
    (∀ response pre body, readLoop 100 w.events [] = .ok response →
      splitFirst headerSep response = some (pre, body) →
      extractArray body = none → get_containers loads w = []) ∧
    (∀ response pre body s, readLoop 100 w.events [] = .ok response →
      splitFirst headerSep response = some (pre, body) →
      extractArray body = some s → loads s = none → get_containers loads w = []) ∧
    (∀ response pre body s xs j rest,
      w.connectOk = true → w.sendOk = true →
      readLoop 100 w.events [] = .ok response →
      splitFirst headerSep response = some (pre, body) →
      extractArray body = some s →
      loads s = some (Json.arr (xs ++ j :: rest)) →
      (∀ x ∈ xs, mapElem x ≠ .error ()) → mapElem j = .error () →
      get_containers loads w = okMapped xs) := by
  refine ⟨fun h => by simp [get_containers, h], fun h => ?_, fun h => ?_,
    fun response h1 h2 => ?_, fun response pre body h1 h2 h3 => ?_,
    fun response pre body s h1 h2 h3 h4 => ?_,
    fun response pre body s xs j rest hc hs h1 h2 h3 h4 hok hj => ?_⟩
  all_goals unfold get_containers
  · cases hcw : w.connectOk <;> simp [hcw, h]
  · cases hcw : w.connectOk <;> cases hsw : w.sendOk <;> simp [hcw, hsw, h]
  · cases hcw : w.connectOk <;> cases hsw : w.sendOk <;> simp [hcw, hsw, h1, h2]
  · cases hcw : w.connectOk <;> cases hsw : w.sendOk <;> simp [hcw, hsw, h1, h2, h3]
  · cases hcw : w.connectOk <;> cases hsw : w.sendOk <;> simp [hcw, hsw, h1, h2, h3, h4]
  · rw [hc, hs]
    simp only [Bool.true_eq_false, if_false, h1, h2, h3, h4, processParsed]
    exact containersLoop_prefix xs hok j hj rest []

/-- C1 counterexample: with a response whose JSON array holds one
well-formed container element followed by the number `7`, the mapping
of the second element raises, yet `get_containers` returns the
one-element partial list — not the empty list the claim requires. -/
theorem get_containers_partial_cex :
    mapElem (Json.num 7 ['7']) = .error () ∧
      get_containers cexLoads cexWorld =
        [⟨"web".toList, Json.str "running".toList, Json.str "img".toList⟩] ∧
      get_containers cexLoads cexWorld ≠ [] := by
  have h2 : get_containers cexLoads cexWorld =
      [⟨"web".toList, Json.str "running".toList, Json.str "img".toList⟩] := rfl
  exact ⟨rfl, h2, fun hnil => List.cons_ne_nil _ _ (h2.symm.trans hnil)⟩

/-- Witness for C1 (amended): the connect-failure case yields `[]`, and
on the counterexample environment the partial-list case yields exactly
the summary of the first element. -/
theorem get_containers_error_handling_witness :
    get_containers cexLoads ⟨false, true, []⟩ = [] ∧
      get_containers cexLoads cexWorld = okMapped [cexElemGood] := by
  have hgood : mapElem cexElemGood =
      .ok (some ⟨"web".toList, Json.str "running".toList, Json.str "img".toList⟩) := rfl
  refine ⟨(get_containers_error_handling cexLoads ⟨false, true, []⟩).1 rfl, ?_⟩
  refine (get_containers_error_handling cexLoads cexWorld).2.2.2.2.2.2
    ("H\r\n\r\n[A]".toList) ("H".toList) ("[A]".toList) ("[A]".toList)
    [cexElemGood] (Json.num 7 ['7']) [] rfl rfl rfl rfl rfl rfl ?_ rfl
  intro x hx
  rw [List.mem_singleton] at hx
  subst hx
  rw [hgood]
  exact fun h => Except.noConfusion h

/-- C10: `get_top_processes(n)` returns at most `n` entries, sorted in
non-increasing order of the computed per-process `cpu` value, and an
unreadable `/proc/uptime` yields the empty list.  (`n = 10` at the
orchestrator's call site.) -/
theorem get_top_processes_spec (clockTicks pageSize : ℤ) (uptime : Except Unit ℚ)
    (pids : Except Unit (List (ℤ × Except Unit StatFields))) (n : ℕ) :
    (get_top_processes clockTicks pageSize uptime pids n).length ≤ n ∧
      (get_top_processes clockTicks pageSize uptime pids n).Sorted
        (fun a b => b.cpu ≤ a.cpu) ∧
      (uptime = .error () → get_top_processes clockTicks pageSize uptime pids n = []) := by
  refine ⟨?_, ?_, ?_⟩
  · match uptime with
    | .error _ => simp [get_top_processes]
    | .ok up =>
        match pids with
        | .error _ => simp [get_top_processes]
        | .ok ps =>
            simp only [get_top_processes, List.length_take]
            exact min_le_left _ _
  · match uptime with
    | .error _ => simp [get_top_processes, List.Sorted]
    | .ok up =>
        match pids with
        | .error _ => simp [get_top_processes, List.Sorted]
        | .ok ps =>
            have hsorted := @List.sorted_mergeSort ProcEntry
              (fun a b : ProcEntry => decide (b.cpu ≤ a.cpu))
              (fun a b c h1 h2 => by
                simp only [decide_eq_true_eq] at h1 h2 ⊢
                exact le_trans h2 h1)
              (fun a b => by
                simp only [Bool.or_eq_true, decide_eq_true_eq]
                exact le_total _ _)
              (ps.filterMap (mapPid clockTicks pageSize up))
            have htake := List.Pairwise.sublist (List.take_sublist n _) hsorted
            simp only [get_top_processes, List.Sorted]
            exact htake.imp (fun h => by simpa using h)
  · intro h
    subst h
    simp [get_top_processes]

/-- Witness for C10 at a concrete unreadable `/proc/uptime`. -/
theorem get_top_processes_spec_witness :
    (get_top_processes 100 4096 (.error ()) (.ok []) 10).length ≤ 10 ∧
      (get_top_processes 100 4096 (.error ()) (.ok []) 10).Sorted
        (fun a b => b.cpu ≤ a.cpu) ∧
      get_top_processes 100 4096 (.error ()) (.ok []) 10 = [] :=
  ⟨(get_top_processes_spec 100 4096 (.error ()) (.ok []) 10).1,
    (get_top_processes_spec 100 4096 (.error ()) (.ok []) 10).2.1,
    (get_top_processes_spec 100 4096 (.error ()) (.ok []) 10).2.2 rfl⟩

/-- C2 (amended): the snapshot pass is a total function of the
collector outcomes (no collector failure aborts it), `GET /metrics`
always answers `200`, and a failed collector core yields its documented
zero/empty/absent default — except that a collector which appends to
its result list as it goes (the container mapper) leaves the partial
list accumulated before an element-level failure in the snapshot. -/
theorem collect_metrics_isolation (serialize : Metrics → Json) (sys : Sys) :
    (sys.uptimeCore = .error () → (collect_metrics sys).uptime = ⟨0, 0⟩) ∧
      (sys.cpuCore = .error () → (collect_metrics sys).cpu = cpuDefault) ∧
      (sys.memoryCore = .error () →
        (collect_metrics sys).memory = memBlockDefault ∧
          (collect_metrics sys).swap = memBlockDefault) ∧
      (sys.loadCore = .error () → (collect_metrics sys).load = loadDefault) ∧
      (sys.fsCore = .error () → (collect_metrics sys).filesystems = []) ∧
      (sys.cpuFreqCore = .error () → (collect_metrics sys).cpu_freq = none) ∧
      (sys.fdCore = .error () → (collect_metrics sys).file_descriptors = none) ∧
      (sys.entropyCore = .error () → (collect_metrics sys).entropy = none) ∧
      (sys.procUptime = .error () → (collect_metrics sys).processes = []) ∧
      (sys.thermal = [] → sys.hwmon = [] → (collect_metrics sys).temperatures = none) ∧
      (sys.tcpContent1 = [] → sys.tcpContent2 = [] → (collect_metrics sys).tcp = tcpZero) ∧
      (sys.logs = [] → (collect_metrics sys).logs = []) ∧
      (sys.docker.connectOk = false → (collect_metrics sys).containers = []) ∧
      (do_GET serialize sys "/metrics".toList).status = 200 ∧
      (do_GET serialize sys "/metrics?compact=1".toList).status = 200 := by
  refine ⟨fun h => ?_, fun h => ?_, fun h => ?_, fun h => ?_, fun h => ?_, fun h => ?_,
    fun h => ?_, fun h => ?_, fun h => ?_, fun h1 h2 => ?_, fun h1 h2 => ?_, fun h => ?_,
    fun h => ?_, rfl, rfl⟩
  · simp [collect_metrics, get_uptime_boot, h]
  · simp [collect_metrics, get_cpu, h]
  · exact ⟨by simp [collect_metrics, get_memory, h], by simp [collect_metrics, get_memory, h]⟩
  · simp [collect_metrics, get_load, h]
  · simp [collect_metrics, get_filesystems, h]
  · simp [collect_metrics, get_cpu_freq, h]
  · simp [collect_metrics, get_file_descriptors, h]
  · simp [collect_metrics, get_entropy, h]
  · simp [collect_metrics, get_top_processes, h]
  · simp [collect_metrics, get_temperatures, h1, h2]
  · have : get_tcp_connections sys.tcpContent1 sys.tcpContent2 = tcpZero := by
      rw [h1, h2]
      rfl
    simp [collect_metrics, this]
  · simp [collect_metrics, get_recent_logs, h]
  · have : get_containers sys.loads sys.docker = [] := by
      simp [get_containers, h]
    simp [collect_metrics, this]

/-- C2 counterexample: in the pass `cexSys`, the container collector
raises while mapping its second element, yet the snapshot's containers
field holds the partial one-element list — not the documented
empty-list default the claim requires for a failed collector. -/
theorem collect_metrics_partial_default_cex :
    mapElem (Json.num 7 ['7']) = .error () ∧
      (collect_metrics cexSys).containers =
        [⟨"web".toList, Json.str "running".toList, Json.str "img".toList⟩] ∧
      (collect_metrics cexSys).containers ≠ [] := by
  have h2 : (collect_metrics cexSys).containers =
      [⟨"web".toList, Json.str "running".toList, Json.str "img".toList⟩] := rfl
  exact ⟨rfl, h2, fun hnil => List.cons_ne_nil _ _ (h2.symm.trans hnil)⟩

/-- Witness for C2 (amended) on the all-failing pass `cexSys`: every
default appears and the handler still answers `200`. -/
theorem collect_metrics_isolation_witness :
    (collect_metrics cexSys).uptime = ⟨0, 0⟩ ∧
      (collect_metrics cexSys).cpu = cpuDefault ∧
      (collect_metrics cexSys).memory = memBlockDefault ∧
      (collect_metrics cexSys).load = loadDefault ∧
      (collect_metrics cexSys).filesystems = [] ∧
      (collect_metrics cexSys).cpu_freq = none ∧
      (collect_metrics cexSys).file_descriptors = none ∧
      (collect_metrics cexSys).entropy = none ∧
      (collect_metrics cexSys).processes = [] ∧
      (collect_metrics cexSys).temperatures = none ∧
      (collect_metrics cexSys).tcp = tcpZero ∧
      (collect_metrics cexSys).logs = [] ∧
      (do_GET (fun _ => Json.null) cexSys "/metrics".toList).status = 200 ∧
      (do_GET (fun _ => Json.null) cexSys "/metrics?compact=1".toList).status = 200 := by
  have h := collect_metrics_isolation (fun _ => Json.null) cexSys
  exact ⟨h.1 rfl, h.2.1 rfl, (h.2.2.1 rfl).1, h.2.2.2.1 rfl, h.2.2.2.2.1 rfl,
    h.2.2.2.2.2.1 rfl, h.2.2.2.2.2.2.1 rfl, h.2.2.2.2.2.2.2.1 rfl,
    h.2.2.2.2.2.2.2.2.1 rfl, h.2.2.2.2.2.2.2.2.2.1 rfl rfl,
    h.2.2.2.2.2.2.2.2.2.2.1 rfl rfl, h.2.2.2.2.2.2.2.2.2.2.2.1 rfl,
    h.2.2.2.2.2.2.2.2.2.2.2.2.2.1, h.2.2.2.2.2.2.2.2.2.2.2.2.2.2⟩

/-- C8: each optional snapshot field — `cpu_freq`, `temperatures`,
`file_descriptors`, `entropy` — is present iff its collector returned
an available (non-`None` / non-empty) result; absence is key omission
(`none`), never a null or zero placeholder; and the temperature
collector never returns an available-but-empty list. -/
theorem collect_metrics_optional_fields (sys : Sys) :
    ((collect_metrics sys).cpu_freq.isSome ↔ (get_cpu_freq sys.cpuFreqCore).isSome) ∧
      ((collect_metrics sys).temperatures.isSome ↔
        (get_temperatures sys.thermal sys.hwmon).isSome) ∧
      ((collect_metrics sys).file_descriptors.isSome ↔
        (get_file_descriptors sys.fdCore).isSome) ∧
      ((collect_metrics sys).entropy.isSome ↔ get_entropy sys.entropyCore ≠ none) ∧
      (∀ l, get_temperatures sys.thermal sys.hwmon = some l → l ≠ []) := by
  have hne : ∀ l, get_temperatures sys.thermal sys.hwmon = some l → l ≠ [] := by
    intro l hl
    unfold get_temperatures at hl
    by_cases he : (sys.thermal ++ sys.hwmon).isEmpty
    · simp [he] at hl
    · simp only [he, if_false] at hl
      cases hl
      simpa [List.isEmpty_iff] using he
  refine ⟨Iff.rfl, ?_, Iff.rfl, ?_, hne⟩
  · show (match get_temperatures sys.thermal sys.hwmon with
      | some l => if l.isEmpty then none else some l
      | none => none).isSome ↔ _
    match htl : get_temperatures sys.thermal sys.hwmon with
    | none => simp
    | some l =>
        have : ¬l.isEmpty := by
          simpa [List.isEmpty_iff] using hne l htl
        simp [this]
  · show (get_entropy sys.entropyCore).isSome ↔ _
    cases get_entropy sys.entropyCore <;> simp

/-- Witness for C8 on `sysTemps` (one thermal reading, all other
optional sources failed): the available-but-empty case of the last
conjunct is discharged at the concrete available list. -/
theorem collect_metrics_optional_fields_witness :
    ((collect_metrics sysTemps).temperatures.isSome ↔
        (get_temperatures sysTemps.thermal sysTemps.hwmon).isSome) ∧
      ((collect_metrics sysTemps).entropy.isSome ↔
        get_entropy sysTemps.entropyCore ≠ none) ∧
      ([⟨"zone0".toList, 30⟩] : List TempEntry) ≠ [] :=
  ⟨(collect_metrics_optional_fields sysTemps).2.1,
    (collect_metrics_optional_fields sysTemps).2.2.2.1,
    (collect_metrics_optional_fields sysTemps).2.2.2.2 [⟨"zone0".toList, 30⟩] rfl⟩

/-- Spaces outside a string are erased. -/
theorem stripWs_replicate (m : ℕ) (rest : List Char) :
    stripWs false false (List.replicate m ' ' ++ rest) = stripWs false false rest := by
  induction m with
  | zero => rfl
  | succ k ih => simpa [stripWs] using ih

/-- Indentation is erased. -/
theorem stripWs_pad (lvl : ℕ) (rest : List Char) :
    stripWs false false (pad lvl ++ rest) = stripWs false false rest :=
  stripWs_replicate _ _

/-- Inside a string, a character that is neither a backslash nor a
quote passes through and keeps the state. -/
theorem stripWs_inStr_keep (c : Char) (h1 : ¬c = '\\') (h2 : ¬c = '"') (cs : List Char) :
    stripWs true false (c :: cs) = c :: stripWs true false cs := by
  simp [stripWs, h1, h2]

/-- A hex digit of a `\uXXXX` escape is never a backslash. -/
theorem hexDigit_mod_ne_bs (m : ℕ) : ¬hexDigit (m % 16) = '\\' := by
  have h : m % 16 < 16 := Nat.mod_lt _ (by norm_num)
  have hall : ∀ n, n < 16 → ¬hexDigit n = '\\' := by decide
  exact hall _ h

/-- A hex digit of a `\uXXXX` escape is never a quote. -/
theorem hexDigit_mod_ne_quote (m : ℕ) : ¬hexDigit (m % 16) = '"' := by
  have h : m % 16 < 16 := Nat.mod_lt _ (by norm_num)
  have hall : ∀ n, n < 16 → ¬hexDigit n = '"' := by decide
  exact hall _ h

/-- A hex digit of a `\uXXXX` escape is never a newline. -/
theorem hexDigit_mod_ne_nl (m : ℕ) : ¬hexDigit (m % 16) = '\n' := by
  have h : m % 16 < 16 := Nat.mod_lt _ (by norm_num)
  have hall : ∀ n, n < 16 → ¬hexDigit n = '\n' := by decide
  exact hall _ h

/-- The escape of one character passes through the in-string scan
untouched. -/
theorem stripWs_escChar (c : Char) (rest : List Char) :
    stripWs true false (escChar c ++ rest) = escChar c ++ stripWs true false rest := by
  unfold escChar
  split
  · simp [stripWs]
  · split
    · simp [stripWs]
    · split
      · simp [stripWs]
      · split
        · simp [stripWs]
        · split
          · simp [stripWs]
          · split
            · simp [stripWs]
            · split
              · simp [stripWs]
              · split
                · split
                  · simp [hex4, stripWs, hexDigit_mod_ne_bs, hexDigit_mod_ne_quote]
                  · simp [hex4, stripWs, hexDigit_mod_ne_bs, hexDigit_mod_ne_quote]
                · rename_i h1 h2 h3 h4 h5 h6 h7 h8
                  simp [stripWs, h1, h2]

/-- The escape of a whole string body passes through the in-string
scan untouched. -/
theorem stripWs_escape (s : List Char) (rest : List Char) :
    stripWs true false (escape s ++ rest) = escape s ++ stripWs true false rest := by
  induction s with
  | nil => simp [escape]
  | cons c cs ih =>
      have h1 : escape (c :: cs) = escChar c ++ escape cs := by simp [escape]
      rw [h1, List.append_assoc, stripWs_escChar, ih, List.append_assoc]

/-- A serialized string literal passes through the scan untouched,
returning to the outside-string state afterwards. -/
theorem stripWs_string (s : List Char) (rest : List Char) :
    stripWs false false ('"' :: (escape s ++ '"' :: rest))
      = '"' :: (escape s ++ '"' :: stripWs false false rest) := by
  have h0 : stripWs false false ('"' :: (escape s ++ '"' :: rest))
      = '"' :: stripWs true false (escape s ++ '"' :: rest) := by simp [stripWs]
  rw [h0, stripWs_escape]
  have h1 : stripWs true false ('"' :: rest) = '"' :: stripWs false false rest := by
    simp [stripWs]
  rw [h1]

/-- A numeral character is not a space, newline or quote. -/
theorem numOkChar_facts (c : Char) (h : numOkChar c = true) :
    ¬c = ' ' ∧ ¬c = '\n' ∧ ¬c = '"' := by
  refine ⟨fun heq => ?_, fun heq => ?_, fun heq => ?_⟩ <;>
    (subst heq; simp [numOkChar] at h)

/-- A rendered numeral passes through the outside-string scan
untouched. -/
theorem numOk_pass (r : List Char) (h : r.all numOkChar = true) (rest : List Char) :
    stripWs false false (r ++ rest) = r ++ stripWs false false rest := by
  induction r with
  | nil => simp
  | cons c cs ih =>
      rw [List.all_cons, Bool.and_eq_true] at h
      obtain ⟨h1, h2, h3⟩ := numOkChar_facts c h.1
      simp [stripWs, h1, h2, h3, ih h.2]

mutual

/-- Erasing insignificant whitespace from the indented dump of a
well-formed value yields its compact dump (stated with a continuation
`rest` so the recursion composes). -/
theorem stripInd_eq : ∀ (j : Json), Json.wf j = true → ∀ (lvl : ℕ) (rest : List Char),
    stripWs false false (dumpsInd lvl j ++ rest) = dumpsCompact j ++ stripWs false false rest
  | .null, _, lvl, rest => by
      simp only [dumpsInd, dumpsCompact]
      show stripWs false false ('n' :: 'u' :: 'l' :: 'l' :: rest)
        = 'n' :: 'u' :: 'l' :: 'l' :: stripWs false false rest
      simp [stripWs]
  | .bool true, _, lvl, rest => by
      simp only [dumpsInd, dumpsCompact]
      show stripWs false false ('t' :: 'r' :: 'u' :: 'e' :: rest)
        = 't' :: 'r' :: 'u' :: 'e' :: stripWs false false rest
      simp [stripWs]
  | .bool false, _, lvl, rest => by
      simp only [dumpsInd, dumpsCompact]
      show stripWs false false ('f' :: 'a' :: 'l' :: 's' :: 'e' :: rest)
        = 'f' :: 'a' :: 'l' :: 's' :: 'e' :: stripWs false false rest
      simp [stripWs]
  | .num v r, h, lvl, rest => by
      simp only [dumpsInd, dumpsCompact]
      have hr : r.all numOkChar = true := by simpa [Json.wf] using h
      exact numOk_pass r hr rest
  | .str s, _, lvl, rest => by
      simp only [dumpsInd, dumpsCompact, List.cons_append, List.append_assoc]
      exact stripWs_string s rest
  | .arr [], _, lvl, rest => by
      simp only [dumpsInd, dumpsCompact, dumpsCompactList]
      show stripWs false false ('[' :: ']' :: rest)
        = '[' :: ']' :: stripWs false false rest
      simp [stripWs]
  | .arr (x :: xs), h, lvl, rest => by
      have hl : Json.wfList (x :: xs) = true := by simpa [Json.wf] using h
      simp only [dumpsInd, dumpsCompact, List.cons_append, List.append_assoc]
      have s1 : ∀ X, stripWs false false ('[' :: '\n' :: X)
          = '[' :: stripWs false false X := fun X => by simp [stripWs]
      have s2 : ∀ X, stripWs false false ('\n' :: X)
          = stripWs false false X := fun X => by simp [stripWs]
      have s3 : ∀ X, stripWs false false (']' :: X)
          = ']' :: stripWs false false X := fun X => by simp [stripWs]
      rw [s1, stripWs_pad, stripIndList_eq (x :: xs) hl (lvl + 1), s2, stripWs_pad, s3]
      simp
  | .obj [], _, lvl, rest => by
      simp only [dumpsInd, dumpsCompact, dumpsCompactObj]
      show stripWs false false ('\x7b' :: '\x7d' :: rest)
        = '\x7b' :: '\x7d' :: stripWs false false rest
      simp [stripWs]
  | .obj (kv :: kvs), h, lvl, rest => by
      have hl : Json.wfObj (kv :: kvs) = true := by simpa [Json.wf] using h
      simp only [dumpsInd, dumpsCompact, List.cons_append, List.append_assoc]
      have s1 : ∀ X, stripWs false false ('\x7b' :: '\n' :: X)
          = '\x7b' :: stripWs false false X := fun X => by simp [stripWs]
      have s2 : ∀ X, stripWs false false ('\n' :: X)
          = stripWs false false X := fun X => by simp [stripWs]
      have s3 : ∀ X, stripWs false false ('\x7d' :: X)
          = '\x7d' :: stripWs false false X := fun X => by simp [stripWs]
      rw [s1, stripWs_pad, stripIndObj_eq (kv :: kvs) hl (lvl + 1), s2, stripWs_pad, s3]
      simp

/-- `stripInd_eq` over array elements. -/
theorem stripIndList_eq : ∀ (xs : List Json), Json.wfList xs = true →
    ∀ (lvl : ℕ) (rest : List Char),
    stripWs false false (dumpsIndList lvl xs ++ rest)
      = dumpsCompactList xs ++ stripWs false false rest
  | [], _, lvl, rest => by simp [dumpsIndList, dumpsCompactList]
  | [x], h, lvl, rest => by
      have hx : Json.wf x = true := by simpa [Json.wfList] using h
      simp only [dumpsIndList, dumpsCompactList]
      exact stripInd_eq x hx lvl rest
  | x :: y :: zs, h, lvl, rest => by
      have h2 : (Json.wf x && Json.wfList (y :: zs)) = true := by
        simpa [Json.wfList] using h
      have hx : Json.wf x = true := ((Bool.and_eq_true _ _).mp h2).1
      have hyz : Json.wfList (y :: zs) = true := ((Bool.and_eq_true _ _).mp h2).2
      simp only [dumpsIndList, dumpsCompactList, List.cons_append, List.append_assoc]
      have s2 : ∀ X, stripWs false false (',' :: '\n' :: X)
          = ',' :: stripWs false false X := fun X => by simp [stripWs]
      rw [stripInd_eq x hx lvl, s2, stripWs_pad, stripIndList_eq (y :: zs) hyz lvl]

/-- `stripInd_eq` over object fields. -/
theorem stripIndObj_eq : ∀ (kvs : List (List Char × Json)), Json.wfObj kvs = true →
    ∀ (lvl : ℕ) (rest : List Char),
    stripWs false false (dumpsIndObj lvl kvs ++ rest)
      = dumpsCompactObj kvs ++ stripWs false false rest
  | [], _, lvl, rest => by simp [dumpsIndObj, dumpsCompactObj]
  | [(k, v)], h, lvl, rest => by
      have hv : Json.wf v = true := by simpa [Json.wfObj] using h
      simp only [dumpsIndObj, dumpsCompactObj, List.cons_append, List.append_assoc]
      have s4 : ∀ X, stripWs false false (':' :: ' ' :: X)
          = ':' :: stripWs false false X := fun X => by simp [stripWs]
      rw [stripWs_string, s4, stripInd_eq v hv lvl]
  | (k, v) :: kv :: rest2, h, lvl, rest => by
      have h2 : (Json.wf v && Json.wfObj (kv :: rest2)) = true := by
        simpa [Json.wfObj] using h
      have hv : Json.wf v = true := ((Bool.and_eq_true _ _).mp h2).1
      have hrest : Json.wfObj (kv :: rest2) = true := ((Bool.and_eq_true _ _).mp h2).2
      simp only [dumpsIndObj, dumpsCompactObj, List.cons_append, List.append_assoc]
      have s4 : ∀ X, stripWs false false (':' :: ' ' :: X)
          = ':' :: stripWs false false X := fun X => by simp [stripWs]
      have s2 : ∀ X, stripWs false false (',' :: '\n' :: X)
          = ',' :: stripWs false false X := fun X => by simp [stripWs]
      rw [stripWs_string, s4, stripInd_eq v hv lvl, s2, stripWs_pad,
        stripIndObj_eq (kv :: rest2) hrest lvl]

end

/-- A hex digit of a `\uXXXX` escape is never a newline (symmetric
form for membership goals). -/
theorem hexDigit_mod_ne_nl2 (m : ℕ) : ¬('\n' = hexDigit (m % 16)) :=
  fun h => hexDigit_mod_ne_nl m h.symm

/-- The escape of one character contains no raw newline. -/
theorem escChar_no_nl (c : Char) : '\n' ∉ escChar c := by
  unfold escChar
  split
  · decide
  · split
    · decide
    · split
      · decide
      · split
        · decide
        · split
          · decide
          · split
            · decide
            · split
              · decide
              · split
                · split
                  · simp [hex4, hexDigit_mod_ne_nl2]
                  · simp [hex4, hexDigit_mod_ne_nl2]
                · rename_i h1 h2 h3 h4 h5 h6 h7 h8
                  intro hmem
                  rw [List.mem_singleton] at hmem
                  subst hmem
                  exact h8 (by decide)

/-- The escape of a string body contains no raw newline. -/
theorem escape_no_nl (s : List Char) : '\n' ∉ escape s := by
  induction s with
  | nil => simp [escape]
  | cons c cs ih =>
      have h1 : escape (c :: cs) = escChar c ++ escape cs := by simp [escape]
      rw [h1]
      simp [List.mem_append, escChar_no_nl c, ih]

/-- A rendered numeral contains no newline. -/
theorem numOk_no_nl (r : List Char) (h : r.all numOkChar = true) : '\n' ∉ r := by
  induction r with
  | nil => simp
  | cons c cs ih =>
      rw [List.all_cons, Bool.and_eq_true] at h
      have hc := (numOkChar_facts c h.1).2.1
      simp only [List.mem_cons]
      rintro (heq | hmem)
      · exact hc heq.symm
      · exact ih h.2 hmem

mutual

/-- The compact dump of a well-formed value contains no newline. -/
theorem nlCompact : ∀ (j : Json), Json.wf j = true → '\n' ∉ dumpsCompact j
  | .null, _ => by simp only [dumpsCompact]; decide
  | .bool true, _ => by simp only [dumpsCompact]; decide
  | .bool false, _ => by simp only [dumpsCompact]; decide
  | .num v r, h => by
      simp only [dumpsCompact]
      exact numOk_no_nl r (by simpa [Json.wf] using h)
  | .str s, _ => by
      simp [dumpsCompact, List.mem_append, escape_no_nl s]
  | .arr xs, h => by
      simp [dumpsCompact, List.mem_append,
        nlCompactList xs (by simpa [Json.wf] using h)]
  | .obj kvs, h => by
      simp [dumpsCompact, List.mem_append,
        nlCompactObj kvs (by simpa [Json.wf] using h)]

/-- `nlCompact` over array elements. -/
theorem nlCompactList : ∀ (xs : List Json), Json.wfList xs = true →
    '\n' ∉ dumpsCompactList xs
  | [], _ => by simp [dumpsCompactList]
  | [x], h => by
      simp only [dumpsCompactList]
      exact nlCompact x (by simpa [Json.wfList] using h)
  | x :: y :: zs, h => by
      have h2 : (Json.wf x && Json.wfList (y :: zs)) = true := by
        simpa [Json.wfList] using h
      simp [dumpsCompactList, List.mem_append,
        nlCompact x ((Bool.and_eq_true _ _).mp h2).1,
        nlCompactList (y :: zs) ((Bool.and_eq_true _ _).mp h2).2]

/-- `nlCompact` over object fields. -/
theorem nlCompactObj : ∀ (kvs : List (List Char × Json)), Json.wfObj kvs = true →
    '\n' ∉ dumpsCompactObj kvs
  | [], _ => by simp [dumpsCompactObj]
  | [(k, v)], h => by
      simp [dumpsCompactObj, List.mem_append, escape_no_nl k,
        nlCompact v (by simpa [Json.wfObj] using h)]
  | (k, v) :: kv :: rest2, h => by
      have h2 : (Json.wf v && Json.wfObj (kv :: rest2)) = true := by
        simpa [Json.wfObj] using h
      simp [dumpsCompactObj, List.mem_append, escape_no_nl k,
        nlCompact v ((Bool.and_eq_true _ _).mp h2).1,
        nlCompactObj (kv :: rest2) ((Bool.and_eq_true _ _).mp h2).2]

end

/-- C9: for a metrics document (a well-formed, non-empty JSON object,
as every document produced by a collection pass is), the body served
for `GET /metrics?compact=1` contains no newline, the body served for
`GET /metrics` is multi-line, and erasing the whitespace that is
insignificant to the JSON grammar from the indented body yields exactly
the compact body — so the two bodies deserialize to structurally
identical data. -/
theorem metrics_serialization (serialize : Metrics → Json) (sys : Sys)
    (hwf : Json.wf (serialize (collect_metrics sys)) = true)
    (kv : List Char × Json) (kvs : List (List Char × Json))
    (hobj : serialize (collect_metrics sys) = .obj (kv :: kvs)) :
    '\n' ∉ (do_GET serialize sys "/metrics?compact=1".toList).body ∧
      '\n' ∈ (do_GET serialize sys "/metrics".toList).body ∧
      stripWs false false ((do_GET serialize sys "/metrics".toList).body)
        = (do_GET serialize sys "/metrics?compact=1".toList).body := by
  have hbody1 : (do_GET serialize sys "/metrics?compact=1".toList).body
      = dumpsCompact (serialize (collect_metrics sys)) := rfl
  have hbody2 : (do_GET serialize sys "/metrics".toList).body
      = dumpsInd 0 (serialize (collect_metrics sys)) := rfl
  refine ⟨?_, ?_, ?_⟩
  · rw [hbody1]
    exact nlCompact _ hwf
  · rw [hbody2, hobj]
    simp [dumpsInd]
  · rw [hbody1, hbody2]
    have h := stripInd_eq (serialize (collect_metrics sys)) hwf 0 []
    have hnil : stripWs false false ([] : List Char) = [] := rfl
    rw [List.append_nil, hnil, List.append_nil] at h
    exact h

/-- Witness for C9 at the concrete marshalling `serializeW` and the
all-failing pass `cexSys`. -/
theorem metrics_serialization_witness :
    (Json.wf (serializeW (collect_metrics cexSys)) = true ∧
        serializeW (collect_metrics cexSys) = .obj (("a".toList, Json.null) :: [])) ∧
      '\n' ∉ (do_GET serializeW cexSys "/metrics?compact=1".toList).body ∧
      '\n' ∈ (do_GET serializeW cexSys "/metrics".toList).body ∧
      stripWs false false ((do_GET serializeW cexSys "/metrics".toList).body)
        = (do_GET serializeW cexSys "/metrics?compact=1".toList).body := by
  have hwf : Json.wf (serializeW (collect_metrics cexSys)) = true := by
    simp [serializeW, Json.wf, Json.wfObj]
  exact ⟨⟨hwf, rfl⟩,
    metrics_serialization serializeW cexSys hwf ("a".toList, Json.null) [] rfl⟩

end MetricsAgent
